import Mathlib

/-!
Verification development for the EC800K HTTP tester firmware (`src/main.rs`).

The firmware drives a cellular modem over a UART with an AT-command
protocol.  The definitions below are a shallow embedding of the pieces of
`main.rs` the claims are about:

* UART read attempts are modelled by `ReadEv` — a successful read of a
  valid-UTF-8 chunk, a successful read of bytes that are not valid UTF-8
  (the source skips the chunk body but still sets its `received` flag and
  byte counter), a read yielding no data, and a read returning a hardware
  error.  The source pattern `match rx.read(..) { Ok(n) if n > 0 => .., _ => {} }`
  treats the last two identically.
* `heapless::String<N>` pushes are modelled by `hpush`/`hpushStr`:
  an append succeeds only if the UTF-8 byte length of the result stays
  within the capacity, otherwise the string is left unchanged (heapless
  `push`/`push_str` return `Err` and append nothing; the source discards
  the `Err` with `let _ = ..`).
* Rust `str::contains` on literal patterns is modelled by `contains`
  (substring search on `List Char`).
-/

set_option linter.unusedVariables false
set_option maxRecDepth 8000

namespace EC800K

/-- Result of one `rx.read(&mut buf).await` attempt in the source:
`data s` is `Ok(n)` with `n > 0` and the bytes decoding to the UTF-8 text `s`;
`badChunk n` is `Ok(n)` with `n > 0` but bytes that are not valid UTF-8
(`core::str::from_utf8` fails, the chunk body is ignored);
`nodata` is `Ok(0)`; `uartErr` is `Err(_)` (a hardware/framing error).
The source's read `match` arms send both `nodata` and `uartErr` into the
same catch-all `_ => {}`. -/
inductive ReadEv
  | data : List Char → ReadEv
  | badChunk : Nat → ReadEv
  | nodata : ReadEv
  | uartErr : ReadEv
  deriving DecidableEq

/-- Boolean list-prefix test (chars compared with `==`). -/
def isPrefixL : List Char → List Char → Bool
  | [], _ => true
  | _ :: _, [] => false
  | a :: as, b :: bs => a == b && isPrefixL as bs

/-- `contains s pat` models Rust `s.contains(pat)`: does `pat` occur as a
contiguous substring of `s`? -/
def contains : List Char → List Char → Bool
  | [], pat => pat.isEmpty
  | c :: rest, pat => isPrefixL pat (c :: rest) || contains rest pat

/-- Byte offset of the first occurrence of `pat` in `s`, if any
(used to state stream-order of token occurrences). -/
def firstIdx : List Char → List Char → Option Nat
  | [], pat => if pat.isEmpty then some 0 else none
  | c :: rest, pat =>
    if isPrefixL pat (c :: rest) then some 0
    else (firstIdx rest pat).map (· + 1)

/-- UTF-8 byte length of a char list (`heapless::String` capacities are in
bytes). -/
def utf8Len (s : List Char) : Nat := (s.map Char.utf8Size).sum

/-- `heapless::String<cap>::push`: appends the char only if the UTF-8 byte
length stays within `cap`; otherwise the string is unchanged. -/
def hpush (cap : Nat) (s : List Char) (c : Char) : List Char :=
  if utf8Len s + c.utf8Size ≤ cap then s ++ [c] else s

/-- `heapless::String<cap>::push_str`: all-or-nothing append — the whole
string is appended only if it fits, otherwise nothing is appended. -/
def hpushStr (cap : Nat) (s t : List Char) : List Char :=
  if utf8Len s + utf8Len t ≤ cap then s ++ t else s

/-- The configured success token of the source: `"OK"`. -/
def okTok : List Char := "OK".toList

/-- The configured failure token of the source: `"ERROR"`. -/
def errTok : List Char := "ERROR".toList

/-- Result of the read-poll loop of `send_at_command` (main.rs lines
898–930): `success` is the `return true` on a chunk containing `"OK"`,
`failure` the `return false` on a chunk containing `"ERROR"`, and
`fell r` means the 10-attempt loop was exhausted with `received == r`. -/
inductive PollRes
  | success
  | failure
  | fell : Bool → PollRes
  deriving DecidableEq

/-- The body of the `for _ in 0..10` loop of `send_at_command`
(main.rs lines 898–930).  On a valid-UTF-8 chunk, `"OK"` is checked before
`"ERROR"` (both with `str::contains`), otherwise the loop keeps going with
`received` set; invalid-UTF-8 chunks only set `received`; `Ok(0)` and
`Err(_)` reads are both skipped by the catch-all arm. -/
def sendPoll : List ReadEv → Bool → PollRes
  | [], r => .fell r
  | .data chunk :: rest, _ =>
    if contains chunk okTok then .success
    else if contains chunk errTok then .failure
    else sendPoll rest true
  | .badChunk _ :: rest, _ => sendPoll rest true
  | .nodata :: rest, r => sendPoll rest r
  | .uartErr :: rest, r => sendPoll rest r

/-- The observable outcome of `send_at_command` (main.rs lines 875–952)
including its published status branch: `sendFailed` is the UART-write-error
branch, `success` the `"OK"` return, `cmdFailed` the `"ERROR"` return,
`noResponse` the exhausted loop with `received == false` (which logs
"No response"), and `gotBytesOnly` the exhausted loop with
`received == true` (bytes arrived but no terminal token — the function
still returns `true`). -/
inductive SendStatus
  | sendFailed
  | success
  | cmdFailed
  | noResponse
  | gotBytesOnly
  deriving DecidableEq

/-- `send_at_command` classified into its five observable outcomes.
`writeOk` is whether `tx.write_all(cmd)` succeeded; `reads` are the
successive read attempts (the loop consumes at most 10). -/
def send_at_status (writeOk : Bool) (reads : List ReadEv) : SendStatus :=
  if writeOk then
    match sendPoll (reads.take 10) false with
    | .success => .success
    | .failure => .cmdFailed
    | .fell true => .gotBytesOnly
    | .fell false => .noResponse
  else .sendFailed

/-- The `bool` returned by `send_at_command` (with the write succeeding):
`true` on `"OK"`, `false` on `"ERROR"`, and `received` when the 10-attempt
loop is exhausted (main.rs line 941 `received`). -/
def send_at_command (reads : List ReadEv) : Bool :=
  match send_at_status true reads with
  | .success => true
  | .gotBytesOnly => true
  | _ => false

/-- `evNoTok ev` holds when the read event carries no terminal token:
either it is not a valid text chunk, or its text contains neither `"OK"`
nor `"ERROR"`. -/
def evNoTok : ReadEv → Bool
  | .data s => !(contains s okTok) && !(contains s errTok)
  | _ => true

/-- `evReceives ev` holds when the read event makes the source set its
`received` flag, i.e. the read returned `Ok(n)` with `n > 0`. -/
def evReceives : ReadEv → Bool
  | .data _ => true
  | .badChunk _ => true
  | _ => false

/-- The structured socket-open success token `"+QIOPEN: 0,0"`
(main.rs line 625). -/
def qiopen00 : List Char := "+QIOPEN: 0,0".toList

/-- The one structured socket-open failure token the source checks for,
`"+QIOPEN: 0,4"` (main.rs line 628). -/
def qiopen04 : List Char := "+QIOPEN: 0,4".toList

/-- Result of the socket-open wait loop in `perform_http_get`
(main.rs lines 600–647): `opened` is the break on `"+QIOPEN: 0,0"`,
`failedOpen` the early return on `"ERROR"`/`"+QIOPEN: 0,4"`, and
`timedOut` the `!opened` branch after the 60-attempt loop is exhausted. -/
inductive OpenRes
  | opened
  | failedOpen
  | timedOut
  deriving DecidableEq

/-- The `for _ in 0..60` loop waiting for the QIOPEN result (main.rs lines
604–639).  Each valid chunk is first pushed into the `String<512>`
accumulator `open_response`, then the chunk and the accumulator are both
searched: `"+QIOPEN: 0,0"` wins, else `"ERROR"` or `"+QIOPEN: 0,4"`
aborts; anything else keeps polling.  (The `got_ok` flag at line 619 only
feeds a debug log and has no effect on the outcome.) -/
def openPoll : List ReadEv → List Char → OpenRes
  | [], _ => .timedOut
  | .data chunk :: rest, acc =>
    let acc2 := hpushStr 512 acc chunk
    if contains chunk qiopen00 || contains acc2 qiopen00 then .opened
    else if contains chunk errTok || contains chunk qiopen04
        || contains acc2 errTok || contains acc2 qiopen04 then .failedOpen
    else openPoll rest acc2
  | _ :: rest, acc => openPoll rest acc

/-- Step 6 of `perform_http_get`: the wait for the outcome of
`AT+QIOPEN=1,0,"TCP","httpbin.org",80,0,0`, starting from an empty
accumulator and polling at most 60 reads. -/
def open_tcp (reads : List ReadEv) : OpenRes :=
  openPoll (reads.take 60) []

/-- Result of the `AT+QIACT=1` wait loop in `perform_http_get`
(main.rs lines 523–552): `gotOk` is the break with `activation_done`,
`gotErr` the break with `got_error`, `exhausted` the loop running out with
neither flag set. -/
inductive ActPoll
  | gotOk
  | gotErr
  | exhausted
  deriving DecidableEq

/-- The `for _ in 0..10` loop after sending `AT+QIACT=1` (main.rs lines
523–552): `"OK"` sets `activation_done`, `"ERROR"` sets `got_error`
(checked in that order per chunk); other reads keep polling. -/
def qiactPoll : List ReadEv → ActPoll
  | [] => .exhausted
  | .data chunk :: rest =>
    if contains chunk okTok then .gotOk
    else if contains chunk errTok then .gotErr
    else qiactPoll rest
  | _ :: rest => qiactPoll rest

/-- Step 5 of `perform_http_get` (main.rs lines 504–585), assuming the
UART writes succeed: the engine advances past PDP activation iff either
`AT+QIACT=1` got `"OK"`, or it got `"ERROR"` and the follow-up status
query `AT+QIACT?` — executed through `send_at_command` on the reads
`qryReads` — returned `true`.  An exhausted activation loop fails the run. -/
def activationStep (actReads qryReads : List ReadEv) : Bool :=
  match qiactPoll (actReads.take 10) with
  | .gotOk => true
  | .gotErr => send_at_command qryReads
  | .exhausted => false

/-- `embassy_sync::signal::Signal::signal` as used for `AT_COMMAND_SIGNAL`
(main.rs lines 60–63, 140): the signal cell stores at most one value, and
signalling stores the new value, replacing whatever was pending; the call
returns `()` — there is no rejection path. -/
def signal (v : List Char) (_pending : Option (List Char)) : Option (List Char) :=
  some v

/-- `embassy_sync::signal::Signal::wait` on the consumer side
(main.rs line 337): takes the pending value, if any, and clears the cell.
Returns (delivered value, new cell state). -/
def waitTake : Option (List Char) → Option (List Char) × Option (List Char)
  | none => (none, none)
  | some v => (some v, none)

/-- Rust `char::to_digit(16)` (used at main.rs line 264), written over the
raw code point: codes 48–57 are the decimal digits, 97–102 the lowercase
and 65–70 the uppercase hex letters (value 10–15). -/
def toDigit16 (c : Char) : Option Nat :=
  let v := c.toNat
  if 48 ≤ v ∧ v ≤ 57 then some (v - 48)
  else if 97 ≤ v ∧ v ≤ 102 then some (v - 87)
  else if 65 ≤ v ∧ v ≤ 70 then some (v - 55)
  else none

/-- The `while let Some(c) = chars.next()` loop of `decode_url`
(main.rs lines 260–273), accumulating into a `heapless::String<64>`.
On `'%'` the next two chars are taken with `unwrap_or('0')` — so a `'%'`
cut off by the end of the input defaults the missing chars to `'0'` — and
if both are hex digits the byte `(h1 << 4) | h2` is pushed `as char`;
otherwise both are consumed and nothing is pushed.  `'+'` pushes a space;
every other char is pushed as-is. -/
def decodeLoop : List Char → List Char → List Char
  | [], out => out
  | c :: rest, out =>
    if c = '%' then
      match rest with
      | [] => hpush 64 out (Char.ofNat 0)
      | [h1] =>
        match toDigit16 h1 with
        | some a => hpush 64 out (Char.ofNat (a * 16))
        | none => out
      | h1 :: h2 :: rest2 =>
        match toDigit16 h1, toDigit16 h2 with
        | some a, some b => decodeLoop rest2 (hpush 64 out (Char.ofNat (a * 16 + b)))
        | _, _ => decodeLoop rest2 out
    else if c = '+' then decodeLoop rest (hpush 64 out ' ')
    else decodeLoop rest (hpush 64 out c)

/-- The CRLF line terminator `"\r\n"`. -/
def crlf : List Char := ['\r', '\n']

/-- Rust `str::ends_with` on char lists. -/
def endsWith (s suffix : List Char) : Bool :=
  isPrefixL suffix.reverse s.reverse

/-- `decode_url` (main.rs lines 256–281): URL-decode into a
`heapless::String<64>`, then append `"\r\n"` if the output does not
already end with it (the append itself is a capacity-checked `push_str`
whose failure is discarded). -/
def decode_url (input : List Char) : List Char :=
  if endsWith (decodeLoop input []) crlf then decodeLoop input []
  else hpushStr 64 (decodeLoop input []) crlf

/-- Initial value of the global `AT_RESULT` status cell (main.rs line 58):
`heapless::String::new()`, the empty string. -/
def AT_RESULT_init : List Char := []

/-- ASCII approximation of `char::is_whitespace` (the source only ever
trims AT-command text, which is ASCII). -/
def isWsp (c : Char) : Bool :=
  c == ' ' || c == '\t' || c == '\n' || c == '\r'

/-- Rust `str::trim`: strip whitespace from both ends. -/
def trim (s : List Char) : List Char :=
  ((s.dropWhile isWsp).reverse.dropWhile isWsp).reverse

/-- The decimal digit characters, used to model `write_u32`. -/
def digitChars : List Char := "0123456789".toList

/-- The digit-collecting loop of `write_u32` (main.rs lines 450–470):
least-significant digits are pushed into a `heapless::Vec<u8, 10>` and
emitted in reverse.  A `u32` has at most 10 decimal digits, so fuel 10
reproduces it exactly. -/
def decDigitsAux : Nat → Nat → List Char
  | 0, _ => []
  | f + 1, n =>
    if n = 0 then []
    else decDigitsAux f (n / 10) ++ [digitChars.getD (n % 10) '0']

/-- `write_u32` (main.rs lines 450–470) applied to `total_bytes as u32`:
renders `n mod 2^32` in decimal (with `"0"` for zero). -/
def write_u32 (n : Nat) : List Char :=
  if n % 4294967296 = 0 then ['0'] else decDigitsAux 10 (n % 4294967296)

/-- Sequential `push_str` calls into the `heapless::String<2048>` result
cell, starting from a freshly `clear()`ed (empty) string. -/
def buildLog (pieces : List (List Char)) : List Char :=
  pieces.foldl (hpushStr 2048) []

/-- The response-reading loop of `handle_at_command` (main.rs lines
378–399): accumulate chunks into the `String<1024>` `response`, set
`received` and add to `total_bytes` on every `Ok(n), n > 0` read, and
break as soon as a chunk contains `"OK"` or `"ERROR"`.  Returns
(response, received, total bytes).  A `badChunk n` read adds its `n`
bytes and sets `received` but contributes no text. -/
def adhocPoll : List ReadEv → List Char → Bool → Nat → List Char × Bool × Nat
  | [], resp, rcv, tb => (resp, rcv, tb)
  | .data chunk :: rest, resp, _, tb =>
    let resp2 := hpushStr 1024 resp chunk
    if contains chunk okTok || contains chunk errTok then
      (resp2, true, tb + utf8Len chunk)
    else adhocPoll rest resp2 true (tb + utf8Len chunk)
  | .badChunk n :: rest, resp, _, tb => adhocPoll rest resp true (tb + n)
  | .nodata :: rest, resp, rcv, tb => adhocPoll rest resp rcv tb
  | .uartErr :: rest, resp, rcv, tb => adhocPoll rest resp rcv tb

/-- The accumulated `response` of `handle_at_command` after its read loop. -/
def adhocResp (reads : List ReadEv) : List Char :=
  (adhocPoll (reads.take 10) [] false 0).1

/-- The `received` flag of `handle_at_command` after its read loop. -/
def adhocReceived (reads : List ReadEv) : Bool :=
  (adhocPoll (reads.take 10) [] false 0).2.1

/-- The `total_bytes` counter of `handle_at_command` after its read loop. -/
def adhocBytes (reads : List ReadEv) : Nat :=
  (adhocPoll (reads.take 10) [] false 0).2.2

/-- The status text published to `AT_RESULT` by the final result block of
`handle_at_command` (main.rs lines 401–443), built piece by piece with
capacity-2048 `push_str` calls after a `clear()`.  The three branches are:
UART write failure; `received` with the per-classification marker line
(`"OK"` checked before `"ERROR"`, then the empty-response case); and the
no-response diagnostic text. -/
def handle_at_command (cmd : List Char) (writeOk : Bool) (reads : List ReadEv) :
    List Char :=
  if writeOk then
    if adhocReceived reads then
      buildLog
        (["📤 Command:\n".toList, trim cmd, "\n\n📥 Response (".toList,
          write_u32 (adhocBytes reads), " bytes):\n".toList,
          adhocResp reads] ++
          (if contains (adhocResp reads) okTok then
            ["\n\n✅ Command successful!".toList]
          else if contains (adhocResp reads) errTok then
            ["\n\n❌ Command failed".toList]
          else if trim (adhocResp reads) = [] then
            ["\n\n⚠️ Empty response".toList]
          else []))
    else
      buildLog
        ["📤 Command:\n".toList, trim cmd,
          "\n\n❌ No response received\n".toList,
          "Possible issues:\n".toList,
          "1. Check UART wiring (GP12→RX, GP13←TX)\n".toList,
          "2. EC800K might be busy or not powered\n".toList,
          "3. Try resetting the EC800K module\n".toList]
  else
    buildLog
      ["❌ Failed to send AT command\n".toList, "Error: ".toList,
        "UART write error".toList]

/-- The marker line distinguishing the no-response case in the published
status (part of main.rs line 427). -/
def noRespTag : List Char := "❌ No response received".toList

/-- The marker line distinguishing the explicit-protocol-error case in the
published status (part of main.rs line 420). -/
def cmdFailTag : List Char := "❌ Command failed".toList

/-- `scrubReadErrs` replaces every hardware read error by a plain
"no data" read, leaving everything else unchanged. -/
def scrubReadErrs : List ReadEv → List ReadEv :=
  List.map fun ev =>
    match ev with
    | ReadEv.uartErr => ReadEv.nodata
    | e => e

/-! ### Helper lemmas -/

theorem utf8Len_append (a b : List Char) :
    utf8Len (a ++ b) = utf8Len a + utf8Len b := by
  simp [utf8Len]

theorem utf8Len_hpush_le (cap : Nat) (s : List Char) (c : Char)
    (h : utf8Len s ≤ cap) : utf8Len (hpush cap s c) ≤ cap := by
  unfold hpush
  split
  · next hfit => rw [utf8Len_append]; simpa [utf8Len] using hfit
  · exact h

theorem utf8Len_hpushStr_le (cap : Nat) (s t : List Char)
    (h : utf8Len s ≤ cap) : utf8Len (hpushStr cap s t) ≤ cap := by
  unfold hpushStr
  split
  · next hfit => rwa [utf8Len_append]
  · exact h

theorem isPrefixL_append_self (p q : List Char) :
    isPrefixL p (p ++ q) = true := by
  induction p with
  | nil => rfl
  | cons a as ih => simp [isPrefixL, ih]

theorem isPrefixL_mono (pat : List Char) :
    ∀ s t, isPrefixL pat s = true → isPrefixL pat (s ++ t) = true := by
  induction pat with
  | nil => intro s t _; rfl
  | cons a as ih =>
    intro s t h
    cases s with
    | nil => simp [isPrefixL] at h
    | cons b bs =>
      simp only [isPrefixL, Bool.and_eq_true] at h
      simp only [List.cons_append, isPrefixL, Bool.and_eq_true]
      exact ⟨h.1, ih bs t h.2⟩

theorem contains_nil_pat (t : List Char) : contains t [] = true := by
  cases t <;> simp [contains, isPrefixL, List.isEmpty]

theorem contains_append_left (s t pat : List Char)
    (h : contains s pat = true) : contains (s ++ t) pat = true := by
  induction s with
  | nil =>
    simp only [contains, List.isEmpty_iff] at h
    subst h
    exact contains_nil_pat t
  | cons c rest ih =>
    simp only [contains, Bool.or_eq_true] at h
    rcases h with h | h
    · simp only [List.cons_append, contains, Bool.or_eq_true]
      exact Or.inl (isPrefixL_mono pat (c :: rest) t h)
    · simp only [List.cons_append, contains, Bool.or_eq_true]
      exact Or.inr (ih h)

theorem contains_append_right (s t pat : List Char)
    (h : contains t pat = true) : contains (s ++ t) pat = true := by
  induction s with
  | nil => exact h
  | cons c rest ih =>
    simp only [List.cons_append, contains, Bool.or_eq_true]
    exact Or.inr ih

theorem contains_self_append (p q : List Char) :
    contains (p ++ q) p = true := by
  cases hp : p ++ q with
  | nil => simp only [contains]; simp [List.append_eq_nil.mp hp]
  | cons c rest =>
    simp only [contains, Bool.or_eq_true]
    exact Or.inl (hp ▸ isPrefixL_append_self p q)

theorem endsWith_append_self (xs suf : List Char) :
    endsWith (xs ++ suf) suf = true := by
  simp only [endsWith, List.reverse_append]
  exact isPrefixL_append_self suf.reverse xs.reverse

theorem sendPoll_append_noTok (pre : List ReadEv) :
    ∀ (l : List ReadEv) (r : Bool), (∀ ev ∈ pre, evNoTok ev = true) →
    sendPoll (pre ++ l) r = sendPoll l (r || pre.any evReceives) := by
  induction pre with
  | nil => intro l r _; simp
  | cons ev pre ih =>
    intro l r h
    have hev := h ev (List.mem_cons_self ev pre)
    have hrest : ∀ e ∈ pre, evNoTok e = true :=
      fun e he => h e (List.mem_cons_of_mem _ he)
    cases ev with
    | data s =>
      simp only [evNoTok, Bool.and_eq_true, Bool.not_eq_true'] at hev
      have hstep : sendPoll ((ReadEv.data s :: pre) ++ l) r
          = sendPoll (pre ++ l) true := by
        simp [sendPoll, hev.1, hev.2]
      rw [hstep, ih l true hrest]
      simp [List.any_cons, evReceives]
    | badChunk n =>
      have hstep : sendPoll ((ReadEv.badChunk n :: pre) ++ l) r
          = sendPoll (pre ++ l) true := rfl
      rw [hstep, ih l true hrest]
      simp [List.any_cons, evReceives]
    | nodata =>
      have hstep : sendPoll ((ReadEv.nodata :: pre) ++ l) r
          = sendPoll (pre ++ l) r := rfl
      rw [hstep, ih l r hrest]
      simp [List.any_cons, evReceives]
    | uartErr =>
      have hstep : sendPoll ((ReadEv.uartErr :: pre) ++ l) r
          = sendPoll (pre ++ l) r := rfl
      rw [hstep, ih l r hrest]
      simp [List.any_cons, evReceives]

theorem sendPoll_scrub (l : List ReadEv) :
    ∀ r, sendPoll (scrubReadErrs l) r = sendPoll l r := by
  induction l with
  | nil => intro r; rfl
  | cons ev rest ih =>
    intro r
    cases ev with
    | data s =>
      simp only [scrubReadErrs, List.map_cons, sendPoll]
      split
      · rfl
      · split
        · rfl
        · exact ih true
    | badChunk n => simpa [scrubReadErrs, sendPoll] using ih true
    | nodata => simpa [scrubReadErrs, sendPoll] using ih r
    | uartErr => simpa [scrubReadErrs, sendPoll] using ih r

theorem foldPush_join (cap : Nat) (ps : List (List Char)) :
    ∀ s, utf8Len s + (ps.map utf8Len).sum ≤ cap →
    ps.foldl (hpushStr cap) s = s ++ ps.flatten := by
  induction ps with
  | nil => intro s h; simp
  | cons p ps ih =>
    intro s h
    simp only [List.map_cons, List.sum_cons] at h
    have hfit : utf8Len s + utf8Len p ≤ cap := by omega
    simp only [List.foldl_cons]
    rw [show hpushStr cap s p = s ++ p from by unfold hpushStr; rw [if_pos hfit]]
    rw [ih (s ++ p) (by rw [utf8Len_append]; omega)]
    simp

theorem foldPush_ne_nil (cap : Nat) (ps : List (List Char)) :
    ∀ s, s ≠ [] → ps.foldl (hpushStr cap) s ≠ [] := by
  induction ps with
  | nil => intro s h; simpa
  | cons p ps ih =>
    intro s h
    simp only [List.foldl_cons]
    apply ih
    unfold hpushStr
    split
    · exact fun hc => h (List.append_eq_nil.mp hc).1
    · exact h

theorem buildLog_ne_nil (p : List Char) (ps : List (List Char))
    (hp : p ≠ []) (hfit : utf8Len p ≤ 2048) :
    buildLog (p :: ps) ≠ [] := by
  unfold buildLog
  simp only [List.foldl_cons]
  rw [show hpushStr 2048 [] p = p from by
    unfold hpushStr; rw [if_pos (by simpa [utf8Len])]; simp]
  exact foldPush_ne_nil 2048 ps p hp

theorem adhocPoll_resp_le (l : List ReadEv) :
    ∀ resp rcv tb, utf8Len resp ≤ 1024 →
    utf8Len (adhocPoll l resp rcv tb).1 ≤ 1024 := by
  induction l with
  | nil => intro resp rcv tb h; exact h
  | cons ev rest ih =>
    intro resp rcv tb h
    cases ev with
    | data chunk =>
      simp only [adhocPoll]
      split
      · exact utf8Len_hpushStr_le _ _ _ h
      · exact ih _ _ _ (utf8Len_hpushStr_le _ _ _ h)
    | badChunk n => exact ih _ _ _ h
    | nodata => exact ih _ _ _ h
    | uartErr => exact ih _ _ _ h

theorem utf8Len_dropWhile_le (p : Char → Bool) (s : List Char) :
    utf8Len (s.dropWhile p) ≤ utf8Len s := by
  induction s with
  | nil => simp
  | cons c rest ih =>
    simp only [List.dropWhile]
    split
    · have : utf8Len (c :: rest) = c.utf8Size + utf8Len rest := by simp [utf8Len]
      omega
    · exact le_refl _

theorem utf8Len_reverse (s : List Char) : utf8Len s.reverse = utf8Len s := by
  simp [utf8Len, List.map_reverse, List.sum_reverse]

theorem utf8Len_trim_le (s : List Char) : utf8Len (trim s) ≤ utf8Len s := by
  unfold trim
  calc utf8Len ((s.dropWhile isWsp).reverse.dropWhile isWsp).reverse
      = utf8Len ((s.dropWhile isWsp).reverse.dropWhile isWsp) :=
        utf8Len_reverse _
    _ ≤ utf8Len (s.dropWhile isWsp).reverse := utf8Len_dropWhile_le _ _
    _ = utf8Len (s.dropWhile isWsp) := utf8Len_reverse _
    _ ≤ utf8Len s := utf8Len_dropWhile_le _ _

theorem digitChars_getD_size (i : Nat) :
    (digitChars.getD i '0').utf8Size = 1 := by
  rcases lt_or_ge i 10 with h | h
  · interval_cases i <;> decide
  · rw [List.getD_eq_default]
    · decide
    · simpa [digitChars] using h

theorem decDigitsAux_le (f : Nat) : ∀ n, utf8Len (decDigitsAux f n) ≤ f := by
  induction f with
  | zero => intro n; simp [decDigitsAux, utf8Len]
  | succ f ih =>
    intro n
    simp only [decDigitsAux]
    split
    · simp [utf8Len]
    · rw [utf8Len_append]
      have h1 := ih (n / 10)
      have h2 : utf8Len [digitChars.getD (n % 10) '0'] = 1 := by
        simp only [utf8Len, List.map_cons, List.map_nil, List.sum_cons,
          List.sum_nil, Nat.add_zero]
        exact digitChars_getD_size (n % 10)
      omega

theorem utf8Len_write_u32_le (n : Nat) : utf8Len (write_u32 n) ≤ 10 := by
  unfold write_u32
  split
  · decide
  · exact decDigitsAux_le 10 _

theorem decodeLoop_le (input out : List Char) :
    utf8Len out ≤ 64 → utf8Len (decodeLoop input out) ≤ 64 := by
  induction input, out using decodeLoop.induct with
  | case1 pat => exact fun h => h
  | case2 pat =>
    intro h
    simp only [decodeLoop]
    exact utf8Len_hpush_le _ _ _ h
  | case3 pat h1 a ha =>
    intro h
    simp only [decodeLoop, ha]
    exact utf8Len_hpush_le _ _ _ h
  | case4 pat h1 ha =>
    intro h
    simp only [decodeLoop, ha]
    exact h
  | case5 pat h1 h2 rest2 a b hb ha ih =>
    intro h
    simp only [decodeLoop, ha, hb]
    exact ih (utf8Len_hpush_le _ _ _ h)
  | case6 pat h1 h2 rest2 hfalse ih =>
    intro h
    simp only [decodeLoop]
    cases hA : toDigit16 h1 with
    | none =>
      cases hB : toDigit16 h2 with
      | none => exact ih h
      | some b => exact ih h
    | some a =>
      cases hB : toDigit16 h2 with
      | none => exact ih h
      | some b => exact (hfalse a b hA hB).elim
  | case7 rest pat hne ih =>
    intro h
    rw [decodeLoop.eq_def]
    simp only [reduceIte]
    exact ih (utf8Len_hpush_le _ _ _ h)
  | case8 c rest pat hc hplus ih =>
    intro h
    rw [decodeLoop.eq_def]
    simp only [if_neg hc, if_neg hplus]
    exact ih (utf8Len_hpush_le _ _ _ h)

/-! ### Claim C1 -/

/-- Claim C1 counterexample: in the response stream `"ERROR\r\nOK\r\n"`
(delivered as a single read chunk) the Failure token occurs at byte 0,
strictly before the Success token at byte 7, yet `send_at_command`
classifies the outcome as Success, because within a chunk `"OK"` is
checked with priority over `"ERROR"` (main.rs lines 914–916). -/
theorem C1_counterexample :
    firstIdx ("ERROR\r\nOK\r\n".toList) errTok = some 0 ∧
    firstIdx ("ERROR\r\nOK\r\n".toList) okTok = some 7 ∧
    send_at_command [ReadEv.data ("ERROR\r\nOK\r\n".toList)] = true := by
  decide

/-- Claim C1 (corrected): `send_at_command` resolves Success/Failure ties
by arrival order at read-chunk granularity only.  If at most 9 reads
precede a chunk `c` and none of them carries a terminal token, then a `c`
containing `"OK"` yields Success regardless of whether and where `"ERROR"`
also occurs in `c`, and a `c` containing `"ERROR"` but not `"OK"` yields
Failure; within a single chunk holding both tokens the Success token wins
by checking priority, not by stream position. -/
theorem C1_amended (pre : List ReadEv) (c : List Char) (rest : List ReadEv)
    (hpre : ∀ ev ∈ pre, evNoTok ev = true) (hlen : pre.length < 10) :
    (contains c okTok = true →
      send_at_command (pre ++ ReadEv.data c :: rest) = true) ∧
    (contains c okTok = false → contains c errTok = true →
      send_at_command (pre ++ ReadEv.data c :: rest) = false) := by
  have htake : (pre ++ ReadEv.data c :: rest).take 10
      = pre ++ ReadEv.data c :: rest.take (10 - pre.length - 1) := by
    rw [List.take_append_eq_append_take, List.take_of_length_le hlen.le]
    congr 1
    rw [show 10 - pre.length = (10 - pre.length - 1) + 1 from by omega]
    exact List.take_succ_cons
  have key := sendPoll_append_noTok pre
    (ReadEv.data c :: rest.take (10 - pre.length - 1)) false hpre
  constructor
  · intro hok
    have hres : sendPoll ((pre ++ ReadEv.data c :: rest).take 10) false
        = PollRes.success := by
      rw [htake, key]
      simp [sendPoll, hok]
    simp [send_at_command, send_at_status, hres]
  · intro hok herr
    have hres : sendPoll ((pre ++ ReadEv.data c :: rest).take 10) false
        = PollRes.failure := by
      rw [htake, key]
      simp [sendPoll, hok, herr]
    simp [send_at_command, send_at_status, hres]

/-- Witness for `C1_amended`: a skipped read followed by a pure
`"ERROR"` chunk classifies as Failure. -/
theorem C1_witness :
    send_at_command ([ReadEv.nodata] ++ ReadEv.data ("ERROR".toList) :: [])
      = false :=
  (C1_amended [ReadEv.nodata] ("ERROR".toList) [] (by decide) (by decide)).2
    (by decide) (by decide)

/-! ### Claim C2 -/

/-- Claim C2 counterexample: a read chunk containing bytes but no terminal
token (`"+CPIN: READY\r\n"`) exhausts the retry loop, yet `send_at_command`
returns `true` — the step counts as successful and the workflow advances
(main.rs line 941 returns `received`), contradicting the claim that such
an execution yields Timeout and is never reported as Success. -/
theorem C2_counterexample :
    contains ("+CPIN: READY\r\n".toList) okTok = false ∧
    contains ("+CPIN: READY\r\n".toList) errTok = false ∧
    send_at_command [ReadEv.data ("+CPIN: READY\r\n".toList)] = true := by
  decide

/-- Claim C2 (corrected): when no read delivers a terminal token,
`send_at_command` returns its `received` flag — it reports success
exactly when at least one of the first ten reads delivered any bytes at
all; only the zero-bytes-everywhere case is reported as the non-success
"no response" outcome. -/
theorem C2_amended (reads : List ReadEv)
    (h : ∀ ev ∈ reads, evNoTok ev = true) :
    (send_at_command reads = true ↔
      ∃ ev ∈ reads.take 10, evReceives ev = true) := by
  have h10 : ∀ ev ∈ reads.take 10, evNoTok ev = true :=
    fun ev he => h ev (List.take_subset 10 reads he)
  have key := sendPoll_append_noTok (reads.take 10) [] false h10
  rw [List.append_nil] at key
  have hfell : sendPoll (reads.take 10) false
      = PollRes.fell ((reads.take 10).any evReceives) := by
    rw [key]
    simp [sendPoll]
  have heq : send_at_command reads = (reads.take 10).any evReceives := by
    cases hb : (reads.take 10).any evReceives <;>
      simp [send_at_command, send_at_status, hfell, hb]
  rw [heq]
  exact List.any_eq_true

/-- Witness for `C2_amended`: with only empty reads, the command is not
reported successful. -/
theorem C2_witness :
    (send_at_command [ReadEv.nodata] = true ↔
      ∃ ev ∈ [ReadEv.nodata].take 10, evReceives ev = true) :=
  C2_amended [ReadEv.nodata] (by decide)

/-! ### Claim C3 -/

/-- Claim C3 counterexample: signalling `"AT+CSQ\r\n"` while `"AT\r\n"` is
still pending replaces the pending trigger — the submission is accepted
(there is no rejection: `Signal::signal` returns `()`), and the previously
pending trigger is overwritten and lost. -/
theorem C3_counterexample :
    signal ("AT+CSQ\r\n".toList) (some ("AT\r\n".toList))
        = some ("AT+CSQ\r\n".toList) ∧
    signal ("AT+CSQ\r\n".toList) (some ("AT\r\n".toList))
        ≠ some ("AT\r\n".toList) := by
  decide

/-- Claim C3 (corrected): the trigger cell is a depth-one latest-wins
latch.  Submitting `b` while `a` is pending always succeeds and replaces
`a`; the consumer subsequently takes `b` and never `a`, and the cell is
left empty — no rejection is ever reported to the submitter. -/
theorem C3_amended (a b : List Char) (h : a ≠ b) :
    (waitTake (signal b (some a))).1 = some b ∧
    (waitTake (signal b (some a))).1 ≠ some a ∧
    (waitTake (signal b (some a))).2 = none := by
  refine ⟨rfl, ?_, rfl⟩
  intro heq
  exact h (Option.some.inj heq).symm

/-- Witness for `C3_amended` at two concrete distinct commands. -/
theorem C3_witness :
    (waitTake (signal ("ATI\r\n".toList) (some ("AT\r\n".toList)))).1
        = some ("ATI\r\n".toList) ∧
    (waitTake (signal ("ATI\r\n".toList) (some ("AT\r\n".toList)))).1
        ≠ some ("AT\r\n".toList) ∧
    (waitTake (signal ("ATI\r\n".toList) (some ("AT\r\n".toList)))).2
        = none :=
  C3_amended ("AT\r\n".toList) ("ATI\r\n".toList) (by decide)

/-! ### Claim C4 -/

/-- Claim C4 counterexample: appending 75 bytes and then 75 more to a
100-byte-capacity `heapless` string keeps the OLDEST 75 bytes and drops
the newest append entirely — the opposite of the claimed oldest-evicted
policy, and no truncation marker appears. -/
theorem C4_counterexample :
    hpushStr 100 (hpushStr 100 [] (List.replicate 75 'a'))
        (List.replicate 75 'b')
      = List.replicate 75 'a' := by
  decide

/-- Claim C4 (corrected): a capacity-`cap` `heapless` string append is
all-or-nothing and newest-lost.  Starting from contents within capacity,
the stored contents never exceed the capacity, the existing (oldest)
content is always preserved as a prefix, and an append that would
overflow leaves the contents entirely unchanged — there is no
oldest-first eviction and no truncation marker. -/
theorem C4_amended (cap : Nat) (s t : List Char) (hs : utf8Len s ≤ cap) :
    utf8Len (hpushStr cap s t) ≤ cap ∧ s <+: hpushStr cap s t ∧
    (cap < utf8Len s + utf8Len t → hpushStr cap s t = s) := by
  unfold hpushStr
  split
  · next hfit =>
    exact ⟨by rwa [utf8Len_append], ⟨t, rfl⟩,
      fun hlt => absurd hfit (not_le.mpr hlt)⟩
  · exact ⟨hs, List.prefix_refl s, fun _ => rfl⟩

/-- Witness for `C4_amended`: 150 bytes appended to a 100-byte log with
2 bytes already stored are dropped whole. -/
theorem C4_witness :
    utf8Len (hpushStr 100 ("ab".toList) (List.replicate 150 'c')) ≤ 100 ∧
    "ab".toList <+: hpushStr 100 ("ab".toList) (List.replicate 150 'c') ∧
    hpushStr 100 ("ab".toList) (List.replicate 150 'c') = "ab".toList := by
  have h := C4_amended 100 ("ab".toList) (List.replicate 150 'c') (by decide)
  exact ⟨h.1, h.2.1, h.2.2 (by decide)⟩

/-! ### Claim C5 -/

/-- Claim C5 counterexample: the open-result `"+QIOPEN: 0,1"` carries a
non-zero error code but is NOT classified as Failure — the loop keeps
polling and ends in the timeout branch, because the source only checks
for the literal `"+QIOPEN: 0,4"` (and `"ERROR"`), not for arbitrary
non-zero codes. -/
theorem C5_counterexample :
    open_tcp [ReadEv.data ("+QIOPEN: 0,1\r\n".toList)] = OpenRes.timedOut ∧
    open_tcp [ReadEv.data ("+QIOPEN: 0,1\r\n".toList)] ≠ OpenRes.failedOpen := by
  decide

/-- Claim C5 (corrected): the socket-open step classifies a chunk as
Success exactly on the literal token `"+QIOPEN: 0,0"`, as Failure exactly
on `"ERROR"` or the literal `"+QIOPEN: 0,4"`, and any other response —
including open-results with other non-zero error codes, or an unrelated
`"OK"` — matches nothing and leaves the loop polling until the timeout
branch. -/
theorem C5_amended (chunk : List Char) :
    (contains chunk qiopen00 = true →
      open_tcp [ReadEv.data chunk] = OpenRes.opened) ∧
    (contains chunk qiopen00 = false →
      contains chunk errTok = true ∨ contains chunk qiopen04 = true →
      open_tcp [ReadEv.data chunk] = OpenRes.failedOpen) ∧
    (contains chunk qiopen00 = false → contains chunk errTok = false →
      contains chunk qiopen04 = false →
      open_tcp [ReadEv.data chunk] = OpenRes.timedOut) := by
  have htake : ([ReadEv.data chunk]).take 60 = [ReadEv.data chunk] :=
    List.take_of_length_le (by simp)
  have hacc : hpushStr 512 [] chunk = chunk ∨ hpushStr 512 [] chunk = [] := by
    unfold hpushStr
    split
    · exact Or.inl (by simp)
    · exact Or.inr rfl
  have hnil00 : contains [] qiopen00 = false := by decide
  have hnilerr : contains [] errTok = false := by decide
  have hnil04 : contains [] qiopen04 = false := by decide
  refine ⟨?_, ?_, ?_⟩
  · intro h1
    simp [open_tcp, htake, openPoll, h1]
  · intro h1 hor
    rcases hacc with h2 | h2 <;> rcases hor with h3 | h3 <;>
      simp [open_tcp, htake, openPoll, h1, h2, h3, hnil00, hnilerr, hnil04]
  · intro h1 h2 h3
    rcases hacc with h4 | h4 <;>
      simp [open_tcp, htake, openPoll, h1, h2, h3, h4, hnil00, hnilerr, hnil04]

/-- Witness for `C5_amended`: the spec's scenario C pair plus a lone
`"OK"` response, which opens nothing. -/
theorem C5_witness :
    open_tcp [ReadEv.data ("+QIOPEN: 0,0\r\n".toList)] = OpenRes.opened ∧
    open_tcp [ReadEv.data ("+QIOPEN: 0,4\r\n".toList)] = OpenRes.failedOpen ∧
    open_tcp [ReadEv.data ("\r\nOK\r\n".toList)] = OpenRes.timedOut := by
  refine ⟨(C5_amended _).1 (by decide),
    (C5_amended _).2.1 (by decide) (Or.inr (by decide)),
    (C5_amended _).2.2 (by decide) (by decide) (by decide)⟩

/-! ### Claim C6 -/

/-- Claim C6 counterexample: activation fails with `"ERROR"`, and the
status query answers a bare `"\r\nOK\r\n"` that contains no `"+QIACT:"`
text at all (no context listed as active) — yet the engine advances to
the socket-opening step, because the source only checks that the query
command itself succeeded and never inspects the captured text for an
active-context indication. -/
theorem C6_counterexample :
    activationStep [ReadEv.data ("\r\nERROR\r\n".toList)]
        [ReadEv.data ("\r\nOK\r\n".toList)] = true ∧
    contains ("\r\nOK\r\n".toList) ("+QIACT:".toList) = false := by
  decide

/-- Claim C6 (corrected): when `AT+QIACT=1` ends in `"ERROR"`, the engine
advances past activation exactly when the `AT+QIACT?` status query — run
through `send_at_command` — reports success (its response contains `"OK"`
before `"ERROR"`, or any bytes arrived without a terminal token); the
query's captured text is never searched for an active-context line. -/
theorem C6_amended (actReads qryReads : List ReadEv)
    (h : qiactPoll (actReads.take 10) = ActPoll.gotErr) :
    activationStep actReads qryReads = send_at_command qryReads := by
  unfold activationStep
  rw [h]

/-- Witness for `C6_amended` at a concrete failed-activation run. -/
theorem C6_witness :
    activationStep [ReadEv.data ("\r\nERROR\r\n".toList)]
        [ReadEv.data ("+QIACT: 1,1,1\r\nOK\r\n".toList)]
      = send_at_command [ReadEv.data ("+QIACT: 1,1,1\r\nOK\r\n".toList)] :=
  C6_amended _ _ (by decide)

/-! ### Claim C7 -/

/-- Claim C7 counterexample: a hardware read error is silently swallowed
— the command continues and even succeeds on a later chunk — and a
read-error attempt is observationally identical to a "no data yet"
attempt, contradicting the claim that read-side transport errors abort
the command with a distinct outcome. -/
theorem C7_counterexample :
    send_at_command [ReadEv.uartErr, ReadEv.data ("\r\nOK\r\n".toList)] = true ∧
    send_at_status true [ReadEv.uartErr] = send_at_status true [ReadEv.nodata] := by
  decide

/-- Claim C7 (corrected): only WRITE errors are surfaced — a failed
`tx.write_all` aborts the command with the distinct `sendFailed` status —
while READ errors are invisible: replacing every hardware read error by a
plain zero-byte read never changes the outcome of `send_at_command`, so
read errors are silently skipped and retried, indistinguishable from
"no data yet". -/
theorem C7_amended (reads : List ReadEv) :
    send_at_status false reads = SendStatus.sendFailed ∧
    send_at_status true (scrubReadErrs reads) = send_at_status true reads := by
  refine ⟨rfl, ?_⟩
  have hmt : (scrubReadErrs reads).take 10 = scrubReadErrs (reads.take 10) := by
    unfold scrubReadErrs
    exact (List.map_take _ reads 10).symm
  unfold send_at_status
  rw [hmt, sendPoll_scrub]

/-! ### Claim C8 -/

/-- Claim C8 counterexample: a 63-byte command (63 `'A'`s) decodes to a
63-byte output, and the terminator append `push_str("\r\n")` then fails
the capacity check of the 64-byte buffer and is silently dropped — the
command reaches the UART without its `"\r\n"` terminator. -/
theorem C8_counterexample :
    endsWith (decode_url (List.replicate 63 'A')) crlf = false := by
  decide

/-- Claim C8 (corrected): the decoded command is `"\r\n"`-terminated only
when the terminator fits: whenever the URL-decoded text leaves at least
two bytes of spare capacity in the 64-byte buffer, the output handed to
the UART ends with `"\r\n"`; at or near capacity the terminator is
silently dropped, as `C8_counterexample` shows. -/
theorem C8_amended (input : List Char)
    (h : utf8Len (decodeLoop input []) + 2 ≤ 64) :
    endsWith (decode_url input) crlf = true := by
  unfold decode_url
  split
  · next hE => exact hE
  · next hE =>
    have h2 : utf8Len crlf = 2 := by decide
    have hfit : utf8Len (decodeLoop input []) + utf8Len crlf ≤ 64 := by omega
    rw [show hpushStr 64 (decodeLoop input []) crlf
        = decodeLoop input [] ++ crlf from by
      unfold hpushStr
      rw [if_pos hfit]]
    exact endsWith_append_self _ _

/-- Witness for `C8_amended`: `"AT"` decodes to a terminated command. -/
theorem C8_witness :
    endsWith (decode_url ("AT".toList)) crlf = true :=
  C8_amended ("AT".toList) (by decide)

/-! ### Claim C10 -/

/-- Claim C10 counterexample: the input `"%"` — a `'%'` escape with NO
following characters, hence not followed by two hex digits — does
contribute an output character: the missing characters default to `'0'`
via `unwrap_or('0')` and a NUL byte is produced, so the decoded output is
`"\x00\r\n"`, not `"\r\n"`. -/
theorem C10_counterexample :
    decode_url ['%'] = [Char.ofNat 0, '\r', '\n'] ∧
    decode_url ['%'] ≠ ['\r', '\n'] := by
  decide

/-- Claim C10 (corrected): `decode_url` always returns normally with at
most 64 bytes of output; a `'%'` followed by two available characters
that are not both hex digits consumes them and contributes nothing;
`'+'` maps to a space; any other character is copied; pushes that would
overflow the 64-byte capacity are silently dropped.  However, when the
input ends inside an escape, the missing characters default to `'0'` and
a character IS produced: `"%"` yields the NUL character. -/
theorem C10_amended :
    (∀ input, utf8Len (decode_url input) ≤ 64) ∧
    (∀ h1 h2 rest out, toDigit16 h1 = none ∨ toDigit16 h2 = none →
      decodeLoop ('%' :: h1 :: h2 :: rest) out = decodeLoop rest out) ∧
    (∀ rest out, decodeLoop ('+' :: rest) out = decodeLoop rest (hpush 64 out ' ')) ∧
    (∀ c rest out, c ≠ '%' → c ≠ '+' →
      decodeLoop (c :: rest) out = decodeLoop rest (hpush 64 out c)) ∧
    decodeLoop ['%'] [] = [Char.ofNat 0] := by
  refine ⟨?_, ?_, ?_, ?_, by decide⟩
  · intro input
    have hout : utf8Len (decodeLoop input []) ≤ 64 :=
      decodeLoop_le input [] (by decide)
    unfold decode_url
    split
    · exact hout
    · exact utf8Len_hpushStr_le _ _ _ hout
  · intro h1 h2 rest out hnone
    rw [decodeLoop.eq_def]
    simp only [reduceIte]
    rcases hnone with hn | hn
    · rw [hn]
    · rw [hn]
      cases toDigit16 h1 <;> rfl
  · intro rest out
    rw [decodeLoop.eq_def]
    simp
  · intro c rest out hc hplus
    rw [decodeLoop.eq_def]
    simp only [if_neg hc, if_neg hplus]

/-- Witness for `C10_amended` at concrete inputs: a near-capacity decode
stays within 64 bytes, and the malformed escape `"%G1"` is dropped. -/
theorem C10_witness :
    utf8Len (decode_url ("AT%2BQICSGP".toList)) ≤ 64 ∧
    decodeLoop ('%' :: 'G' :: '1' :: "x".toList) [] = decodeLoop ("x".toList) [] := by
  have h := C10_amended
  exact ⟨h.1 _, h.2.1 'G' '1' ("x".toList) [] (Or.inl (by decide))⟩

/-! ### Claim C9 -/

/-- Claim C9 counterexample: the externally readable status cell starts
out as `heapless::String::new()` — the EMPTY string — so at startup,
before the UART task publishes anything, the front end's status label is
empty, contradicting the claim that it is non-empty at every instant. -/
theorem C9_counterexample : AT_RESULT_init = [] := by
  rfl

/-- Claim C9 (corrected): at startup the status text is empty (see
`C9_counterexample`); but once `handle_at_command` processes a command
(with the command text within its 64-byte buffer) the published status is
always non-empty, and the two error cases remain distinguishable: the
deadline-without-response case carries the marker `"❌ No response
received"` while the explicit-protocol-error case carries the distinct
marker `"❌ Command failed"`. -/
theorem C9_amended (cmd : List Char) (reads : List ReadEv)
    (hcmd : utf8Len cmd ≤ 64) :
    (∀ w, handle_at_command cmd w reads ≠ []) ∧
    (adhocReceived reads = false →
      contains (handle_at_command cmd true reads) noRespTag = true) ∧
    (contains (adhocResp reads) okTok = false →
      contains (adhocResp reads) errTok = true →
      adhocReceived reads = true →
      contains (handle_at_command cmd true reads) cmdFailTag = true) ∧
    AT_RESULT_init = [] := by
  have htrim := utf8Len_trim_le cmd
  refine ⟨?_, ?_, ?_, rfl⟩
  · intro w
    cases w with
    | false =>
      simp only [handle_at_command, Bool.false_eq_true, if_false]
      exact buildLog_ne_nil _ _ (by decide) (by decide)
    | true =>
      cases hrcv : adhocReceived reads with
      | false =>
        simp [handle_at_command, hrcv]
        exact buildLog_ne_nil _ _ (by decide) (by decide)
      | true =>
        simp [handle_at_command, hrcv]
        exact buildLog_ne_nil _ _ (by decide) (by decide)
  · intro hrcv
    have hred : handle_at_command cmd true reads
        = buildLog ["📤 Command:\n".toList, trim cmd,
            "\n\n❌ No response received\n".toList,
            "Possible issues:\n".toList,
            "1. Check UART wiring (GP12→RX, GP13←TX)\n".toList,
            "2. EC800K might be busy or not powered\n".toList,
            "3. Try resetting the EC800K module\n".toList] := by
      simp [handle_at_command, hrcv]
    have hsum : utf8Len ([] : List Char)
        + (["📤 Command:\n".toList, trim cmd,
            "\n\n❌ No response received\n".toList,
            "Possible issues:\n".toList,
            "1. Check UART wiring (GP12→RX, GP13←TX)\n".toList,
            "2. EC800K might be busy or not powered\n".toList,
            "3. Try resetting the EC800K module\n".toList].map utf8Len).sum
          ≤ 2048 := by
      simp only [List.map_cons, List.map_nil, List.sum_cons, List.sum_nil]
      have c1 : utf8Len ("📤 Command:\n".toList) ≤ 64 := by decide
      have c3 : utf8Len ("\n\n❌ No response received\n".toList) ≤ 64 := by decide
      have c4 : utf8Len ("Possible issues:\n".toList) ≤ 64 := by decide
      have c5 : utf8Len ("1. Check UART wiring (GP12→RX, GP13←TX)\n".toList) ≤ 64 := by
        decide
      have c6 : utf8Len ("2. EC800K might be busy or not powered\n".toList) ≤ 64 := by
        decide
      have c7 : utf8Len ("3. Try resetting the EC800K module\n".toList) ≤ 64 := by
        decide
      have c0 : utf8Len ([] : List Char) = 0 := by decide
      omega
    rw [hred]
    unfold buildLog
    rw [foldPush_join 2048 _ [] hsum, List.nil_append]
    simp only [List.flatten_cons, List.flatten_nil, List.append_nil]
    apply contains_append_right
    apply contains_append_right
    exact contains_append_left _ _ _ (by decide)
  · intro hok herr hrcv
    have hred : handle_at_command cmd true reads
        = buildLog ["📤 Command:\n".toList, trim cmd,
            "\n\n📥 Response (".toList, write_u32 (adhocBytes reads),
            " bytes):\n".toList, adhocResp reads,
            "\n\n❌ Command failed".toList] := by
      simp [handle_at_command, hrcv, hok, herr]
    have hresp : utf8Len (adhocResp reads) ≤ 1024 := by
      unfold adhocResp
      exact adhocPoll_resp_le _ _ _ _ (by decide)
    have hw := utf8Len_write_u32_le (adhocBytes reads)
    have hsum : utf8Len ([] : List Char)
        + (["📤 Command:\n".toList, trim cmd,
            "\n\n📥 Response (".toList, write_u32 (adhocBytes reads),
            " bytes):\n".toList, adhocResp reads,
            "\n\n❌ Command failed".toList].map utf8Len).sum ≤ 2048 := by
      simp only [List.map_cons, List.map_nil, List.sum_cons, List.sum_nil]
      have c1 : utf8Len ("📤 Command:\n".toList) ≤ 64 := by decide
      have c3 : utf8Len ("\n\n📥 Response (".toList) ≤ 64 := by decide
      have c5 : utf8Len (" bytes):\n".toList) ≤ 64 := by decide
      have c7 : utf8Len ("\n\n❌ Command failed".toList) ≤ 64 := by decide
      have c0 : utf8Len ([] : List Char) = 0 := by decide
      omega
    rw [hred]
    unfold buildLog
    rw [foldPush_join 2048 _ [] hsum, List.nil_append]
    simp only [List.flatten_cons, List.flatten_nil, List.append_nil]
    apply contains_append_right
    apply contains_append_right
    apply contains_append_right
    apply contains_append_right
    apply contains_append_right
    apply contains_append_right
    decide

/-- Witness for `C9_amended`: with no response at all, the published
status is non-empty and carries the no-response marker. -/
theorem C9_witness :
    handle_at_command ("AT\r\n".toList) false [] ≠ [] ∧
    contains (handle_at_command ("AT\r\n".toList) true []) noRespTag = true := by
  have h := C9_amended ("AT\r\n".toList) [] (by decide)
  exact ⟨h.1 false, h.2.1 (by decide)⟩

end EC800K
